import Mathlib

/-
  Shallow embedding of the loan-prediction front end
  (the Prediction page: form state, per-field input validation,
  derived-field computation, model selection, and the fallback
  heuristic simulatePrediction), together with theorems settling
  the specification claims about it.

  String-valued form fields are embedded as Lean String values.
  Numeric form fields (aph, atl, quarterFluctuation) are strings in
  the source that are consumed only through parseFloat; they are
  embedded as Option Rat, where none stands for the empty string and
  some q for a string that parses to the number q.
-/

namespace LoanPrediction

/-- Form state of the Prediction page, mirroring the useState initial
object: fields creditShort, creditLong, timeLimitation, cph, ctl, aph,
atl, quarterFluctuation, resultantFluctuation. -/
structure FormData where
  creditShort : String
  creditLong : String
  timeLimitation : String
  cph : String
  ctl : String
  aph : Option ℚ
  atl : Option ℚ
  quarterFluctuation : Option ℚ
  resultantFluctuation : String
deriving DecidableEq

/-- The initial form state: every field empty. -/
def initialFormData : FormData :=
  { creditShort := ""
    creditLong := ""
    timeLimitation := ""
    cph := ""
    ctl := ""
    aph := none
    atl := none
    quarterFluctuation := none
    resultantFluctuation := "" }

/-- The state produced by resetForm, which sets the same all-empty
object as the initial state. -/
def resetFormData : FormData :=
  { creditShort := ""
    creditLong := ""
    timeLimitation := ""
    cph := ""
    ctl := ""
    aph := none
    atl := none
    quarterFluctuation := none
    resultantFluctuation := "" }

/-- An input-change event reaching handleInputChange. Exactly six form
controls are wired with onChange to handleInputChange: the selects for
creditShort, cph, ctl and the number inputs for aph, atl,
quarterFluctuation. The creditLong and resultantFluctuation inputs are
readOnly with no onChange handler, and timeLimitation has no control at
all, so no change event carries those names. -/
inductive Event where
  | setCreditShort (v : String)
  | setCph (v : String)
  | setCtl (v : String)
  | setAph (v : Option ℚ)
  | setAtl (v : Option ℚ)
  | setQuarterFluctuation (v : Option ℚ)
deriving DecidableEq

/-- Whether an event targets the quarterFluctuation field. -/
def Event.isQF : Event → Bool
  | .setQuarterFluctuation _ => true
  | _ => false

/-- Derivation of creditLong and resultantFluctuation from a parsed
quarterFluctuation value q: q below 0 gives "-1" (Poor), q between 0
and 3 gives "0" (Normal), q above 3 gives "1" (Good). The source
tests the three conditions in this order; for a parsed rational the
three cases are exhaustive, so the final branch is the q above 3
case. -/
def deriveFromFluctuation (q : ℚ) : String :=
  if q < 0 then "-1"
  else if 0 ≤ q ∧ q ≤ 3 then "0"
  else "1"

/-- The handleInputChange handler. Each case mirrors the switch in the
source: cph, ctl and creditShort accept only the strings "1", "0",
"-1" (or empty) and otherwise return without updating; aph and atl
reject a parsed value above 1 or below -10; quarterFluctuation rejects
a parsed value above 8 or below -8 and, when accepted and non-empty,
also stores the derived value into creditLong and
resultantFluctuation, or clears both when the field is emptied. -/
def handleInputChange (fd : FormData) : Event → FormData
  | .setCreditShort v =>
      if v ≠ "" ∧ v ∉ (["1", "0", "-1"] : List String) then fd
      else { fd with creditShort := v }
  | .setCph v =>
      if v ≠ "" ∧ v ∉ (["1", "0", "-1"] : List String) then fd
      else { fd with cph := v }
  | .setCtl v =>
      if v ≠ "" ∧ v ∉ (["1", "0", "-1"] : List String) then fd
      else { fd with ctl := v }
  | .setAph v =>
      match v with
      | none => { fd with aph := none }
      | some q => if q > 1 ∨ q < -10 then fd else { fd with aph := some q }
  | .setAtl v =>
      match v with
      | none => { fd with atl := none }
      | some q => if q > 1 ∨ q < -10 then fd else { fd with atl := some q }
  | .setQuarterFluctuation v =>
      match v with
      | none =>
          { fd with quarterFluctuation := none, creditLong := "", resultantFluctuation := "" }
      | some q =>
          if q > 8 ∨ q < -8 then fd
          else
            { fd with
                quarterFluctuation := some q
                creditLong := deriveFromFluctuation q
                resultantFluctuation := deriveFromFluctuation q }

/-- Running a sequence of input-change events from the initial form
state. -/
def runInputs (es : List Event) : FormData :=
  es.foldl handleInputChange initialFormData

/-- A user action on the form: either an input-change event or a click
of the Reset button. -/
inductive Action where
  | input (e : Event)
  | reset
deriving DecidableEq

/-- One user action applied to the form state: input events go through
handleInputChange, reset replaces the state with the all-empty
object. -/
def applyAction (fd : FormData) : Action → FormData
  | .input e => handleInputChange fd e
  | .reset => resetFormData

/-- Running a sequence of user actions from the initial form state. -/
def runActions (as : List Action) : FormData :=
  as.foldl applyAction initialFormData

/-- The two service types offered by the page, stored in
selectedService as the strings loan and classification. -/
inductive ServiceType where
  | loan
  | classification
deriving DecidableEq

/-- The four model identifiers offered by the model-selection cards. -/
inductive ModelKey where
  | xgboost
  | random_forest
  | logistic
  | knn
deriving DecidableEq

/-- The service field of each model card: xgboost and random_forest
carry service loan; logistic and knn carry service classification. -/
def serviceOf : ModelKey → ServiceType
  | .xgboost => .loan
  | .random_forest => .loan
  | .logistic => .classification
  | .knn => .classification

/-- The constant selectedModels map of the page: loan maps to
[xgboost, random_forest] and classification maps to [knn, logistic].
The setter of this state is never invoked, so the map never changes. -/
def selectedModelsFor : ServiceType → List ModelKey
  | .loan => [.xgboost, .random_forest]
  | .classification => [.knn, .logistic]

/-- The model-selection state of the page: the selectedService string
and the optional specificModel. -/
structure ModelSelState where
  selectedService : ServiceType
  specificModel : Option ModelKey
deriving DecidableEq

/-- Initial model-selection state: selectedService is loan and
specificModel is null. -/
def initialModelSel : ModelSelState :=
  { selectedService := .loan, specificModel := none }

/-- Events that touch the model-selection state: clicking a model card
(which sets specificModel to the key and selectedService to the
service of that card, in the same handler) and clicking Reset (whose
resetForm sets specificModel back to null and leaves selectedService
unchanged). -/
inductive ModelEvent where
  | selectModel (k : ModelKey)
  | resetClick
deriving DecidableEq

/-- One model-selection event applied to the state. -/
def modelStep (st : ModelSelState) : ModelEvent → ModelSelState
  | .selectModel k => { selectedService := serviceOf k, specificModel := some k }
  | .resetClick => { st with specificModel := none }

/-- Running a sequence of model-selection events from the initial
state. -/
def runModelSel (es : List ModelEvent) : ModelSelState :=
  es.foldl modelStep initialModelSel

/-- The selectedModels list placed into the request body by
callPredictionAPI: the singleton of specificModel when one is chosen,
otherwise the entry of the constant map for the current
selectedService. -/
def requestModels (st : ModelSelState) : List ModelKey :=
  match st.specificModel with
  | some k => [k]
  | none => selectedModelsFor st.selectedService

/-- Parsing of a discrete form-field string as a number, as parseFloat
sees the strings the validated form can hold: "1", "0", "-1" parse to
the corresponding rational; the empty string parses to NaN, embedded
as none. -/
def parseDiscrete? (s : String) : Option ℚ :=
  if s = "1" then some 1
  else if s = "0" then some 0
  else if s = "-1" then some (-1)
  else none

/-- Models the source expression parseFloat(s) || 0: both NaN (a
non-parsing string) and 0 are falsy, so the fallback 0 applies to
them, which coincides with defaulting none to 0. -/
def parseOr0 (s : String) : ℚ :=
  (parseDiscrete? s).getD 0

/-- Models the source guard parseFloat(s) > 0.7: a NaN comparison is
false, so a non-parsing string fails the guard. -/
def cphGt (s : String) : Bool :=
  match parseDiscrete? s with
  | some q => decide (q > 7/10)
  | none => false

/-- Models the source guard comparing formData.paymentHistory with the
string excellent under strict equality: the form state holds no
paymentHistory key and no code path ever adds one, so the access
yields undefined and the comparison is always false. -/
def paymentHistoryExcellent (_ : FormData) : Bool := false

/-- The score accumulated by simulatePrediction: 30 when the parsed
creditShort exceeds 650, 30 when the parsed creditLong exceeds 650,
25 when paymentHistory is excellent, 15 when the parsed cph exceeds
0.7. -/
def simScore (fd : FormData) : ℚ :=
  (if parseOr0 fd.creditShort > 650 then 30 else 0)
  + (if parseOr0 fd.creditLong > 650 then 30 else 0)
  + (if paymentHistoryExcellent fd then 25 else 0)
  + (if cphGt fd.cph then 15 else 0)

/-- The factors object of the fallback result. -/
structure Factors where
  creditScore : String
  paymentHistory : String
  debtRatio : String
deriving DecidableEq

/-- The object returned by simulatePrediction. The confidence field
holds the numeric value from which the source builds its string via
toFixed with one decimal; the other fields are verbatim. -/
structure SimResult where
  prediction : String
  confidence : ℚ
  loanRange : String
  factors : Factors
deriving DecidableEq

/-- The fallback simulatePrediction. The parameter r stands for the
value returned by the one call of Math.random that the taken branch
performs, so r ranges over the interval from 0 inclusive to 1
exclusive. Score at least 80 yields Very_Good, at least 50 yields
Normal, otherwise Very_Bad, each with its loan range string and its
randomised confidence. -/
def simulatePrediction (fd : FormData) (r : ℚ) : SimResult :=
  let score := simScore fd
  let factors : Factors :=
    { creditScore := if parseOr0 fd.creditShort > 650 then "Positive" else "Needs Improvement"
      paymentHistory := if paymentHistoryExcellent fd then "Excellent" else "Needs Improvement"
      debtRatio := if cphGt fd.cph then "Good" else "High Risk" }
  if score ≥ 80 then
    { prediction := "Very_Good"
      confidence := 92 + r * 6
      loanRange := "$50,000 - $200,000"
      factors := factors }
  else if score ≥ 50 then
    { prediction := "Normal"
      confidence := 75 + r * 15
      loanRange := "$10,000 - $50,000"
      factors := factors }
  else
    { prediction := "Very_Bad"
      confidence := 60 + r * 20
      loanRange := "Not eligible"
      factors := factors }

/-- The field names of the object literal returned by
simulatePrediction. -/
def simResultKeys : List String :=
  ["prediction", "confidence", "loanRange", "factors"]

/-- The field names of the object returned by callPredictionAPI on a
successful model-backed response. -/
def apiResultKeys : List String :=
  ["prediction", "confidence", "loanRange", "factors", "modelPredictions", "processingTime"]

/-- The closed label set of verdicts. -/
inductive Label where
  | veryGood
  | normal
  | veryBad
deriving DecidableEq

/-- The string form of each label. -/
def labelName : Label → String
  | .veryGood => "Very_Good"
  | .normal => "Normal"
  | .veryBad => "Very_Bad"

/-- Modelled from the spec: the category-to-range mapping of section
4.5, a total function over the closed label set, stated in the words
of the spec for comparison with the ranges the fallback path
returns. -/
def mapRange : Label → String
  | .veryGood => "$50,000 - $200,000"
  | .normal => "$10,000 - $50,000"
  | .veryBad => "Not eligible"

/-- A numeric form field lies in the closed interval between lo and
hi, the empty field counting as in range. -/
def optionInRange (lo hi : ℚ) : Option ℚ → Prop
  | none => True
  | some x => lo ≤ x ∧ x ≤ hi

/-
  Helper lemmas.
-/

/-- A predicate preserved by every step of a fold holds of the fold
result whenever it holds of the start state. -/
lemma foldl_preserves {σ α : Type} (step : σ → α → σ) (P : σ → Prop)
    (hstep : ∀ s a, P s → P (step s a)) :
    ∀ (l : List α) (s : σ), P s → P (l.foldl step s) := by
  intro l
  induction l with
  | nil => intro s hs; exact hs
  | cons a l ih => intro s hs; exact ih (step s a) (hstep s a hs)

/-
  Claim theorems.
-/

/-- C1: for every quarterFluctuation value q accepted by the input
handler, that is every q in the closed interval from -8 to 8, the
field is stored and both derived fields creditLong and
resultantFluctuation are set to "-1" when q is below 0, to "0" when q
is between 0 and 3, and to "1" when q is above 3. -/
theorem quarterFluctuation_derivation (fd : FormData) (q : ℚ)
    (hlo : -8 ≤ q) (hhi : q ≤ 8) :
    (handleInputChange fd (.setQuarterFluctuation (some q))).quarterFluctuation = some q ∧
    (q < 0 →
      (handleInputChange fd (.setQuarterFluctuation (some q))).creditLong = "-1" ∧
      (handleInputChange fd (.setQuarterFluctuation (some q))).resultantFluctuation = "-1") ∧
    (0 ≤ q → q ≤ 3 →
      (handleInputChange fd (.setQuarterFluctuation (some q))).creditLong = "0" ∧
      (handleInputChange fd (.setQuarterFluctuation (some q))).resultantFluctuation = "0") ∧
    (3 < q →
      (handleInputChange fd (.setQuarterFluctuation (some q))).creditLong = "1" ∧
      (handleInputChange fd (.setQuarterFluctuation (some q))).resultantFluctuation = "1") := by
  have hrej : ¬ (q > 8 ∨ q < -8) := by
    push_neg
    exact ⟨hhi, hlo⟩
  simp only [handleInputChange, if_neg hrej]
  refine ⟨trivial, ?_, ?_, ?_⟩
  · intro hq
    simp [deriveFromFluctuation, if_pos hq]
  · intro h0 h3
    have hq : ¬ q < 0 := not_lt.mpr h0
    simp [deriveFromFluctuation, if_neg hq, h0, h3]
  · intro hq
    have h0 : ¬ q < 0 := not_lt.mpr (le_of_lt (lt_of_le_of_lt (by norm_num) hq))
    have h3 : ¬ (0 ≤ q ∧ q ≤ 3) := by
      intro hc
      exact absurd hq (not_lt.mpr hc.2)
    simp [deriveFromFluctuation, if_neg h0, if_neg h3]

/-- Witness for C1: the handler on the concrete value -5, accepted
since it lies in the interval, sets creditLong to "-1". -/
theorem quarterFluctuation_derivation_witness :
    (handleInputChange initialFormData (.setQuarterFluctuation (some (-5)))).creditLong = "-1" :=
  ((quarterFluctuation_derivation initialFormData (-5)
      (by norm_num) (by norm_num)).2.1 (by norm_num)).1

/-- C2: for each discrete field creditShort, cph and ctl, the handler
accepts the three values "1", "0" and "-1", storing the value into the
field, and leaves the whole form state unchanged on every other
non-empty value. -/
theorem discreteFields_domain (fd : FormData) (v : String) :
    (v ∈ (["1", "0", "-1"] : List String) →
      (handleInputChange fd (.setCreditShort v)).creditShort = v ∧
      (handleInputChange fd (.setCph v)).cph = v ∧
      (handleInputChange fd (.setCtl v)).ctl = v) ∧
    (v ≠ "" → v ∉ (["1", "0", "-1"] : List String) →
      handleInputChange fd (.setCreditShort v) = fd ∧
      handleInputChange fd (.setCph v) = fd ∧
      handleInputChange fd (.setCtl v) = fd) := by
  constructor
  · intro hv
    have hacc : ¬ (v ≠ "" ∧ v ∉ (["1", "0", "-1"] : List String)) := by
      intro hc
      exact hc.2 hv
    simp only [handleInputChange, if_neg hacc]
    exact ⟨trivial, trivial, trivial⟩
  · intro hne hnm
    have hrej : v ≠ "" ∧ v ∉ (["1", "0", "-1"] : List String) := ⟨hne, hnm⟩
    simp only [handleInputChange, if_pos hrej]
    exact ⟨trivial, trivial, trivial⟩

/-- Witness for C2: the value "1" is accepted into cph while the value
"2" leaves the state unchanged. -/
theorem discreteFields_domain_witness :
    (handleInputChange initialFormData (.setCph "1")).cph = "1" ∧
    handleInputChange initialFormData (.setCph "2") = initialFormData :=
  ⟨((discreteFields_domain initialFormData "1").1 (by decide)).2.1,
   ((discreteFields_domain initialFormData "2").2 (by decide) (by decide)).2.1⟩

/-- C3: for the continuous fields aph and atl, the handler accepts
every parsed value in the closed interval from -10 to 1, storing it
into the field, and leaves the whole form state unchanged on every
parsed value outside that interval. -/
theorem aph_atl_range (fd : FormData) (q : ℚ) :
    (-10 ≤ q → q ≤ 1 →
      (handleInputChange fd (.setAph (some q))).aph = some q ∧
      (handleInputChange fd (.setAtl (some q))).atl = some q) ∧
    (1 < q ∨ q < -10 →
      handleInputChange fd (.setAph (some q)) = fd ∧
      handleInputChange fd (.setAtl (some q)) = fd) := by
  constructor
  · intro hlo hhi
    have hacc : ¬ (q > 1 ∨ q < -10) := by
      push_neg
      exact ⟨hhi, hlo⟩
    simp only [handleInputChange, if_neg hacc]
    exact ⟨trivial, trivial⟩
  · intro hrej
    simp only [handleInputChange, if_pos hrej]
    exact ⟨trivial, trivial⟩

/-- Witness for C3: the boundary value 1 is accepted into aph while
the value 1.01 leaves the state unchanged. -/
theorem aph_atl_range_witness :
    (handleInputChange initialFormData (.setAph (some 1))).aph = some 1 ∧
    handleInputChange initialFormData (.setAph (some (101/100))) = initialFormData :=
  ⟨((aph_atl_range initialFormData 1).1 (by norm_num) (by norm_num)).1,
   ((aph_atl_range initialFormData (101/100)).2 (by norm_num)).1⟩

/-- C4: the category-to-range mapping is total over the closed label
set, mapping Very_Good to its dollar range, Normal to its dollar range
and Very_Bad to Not eligible, and for every input the fallback path
returns a label from the closed set together with exactly the loan
range that the mapping assigns to that label. -/
theorem mapRange_total_and_fallback_consistent :
    (mapRange Label.veryGood = "$50,000 - $200,000" ∧
     mapRange Label.normal = "$10,000 - $50,000" ∧
     mapRange Label.veryBad = "Not eligible") ∧
    ∀ (fd : FormData) (r : ℚ), ∃ l : Label,
      (simulatePrediction fd r).prediction = labelName l ∧
      (simulatePrediction fd r).loanRange = mapRange l := by
  refine ⟨⟨rfl, rfl, rfl⟩, ?_⟩
  intro fd r
  by_cases h80 : simScore fd ≥ 80
  · exact ⟨.veryGood, by simp [simulatePrediction, if_pos h80, labelName, mapRange]⟩
  · by_cases h50 : simScore fd ≥ 50
    · exact ⟨.normal, by simp [simulatePrediction, if_neg h80, if_pos h50, labelName, mapRange]⟩
    · exact ⟨.veryBad, by simp [simulatePrediction, if_neg h80, if_neg h50, labelName, mapRange]⟩

/-- C5: on every form state whose fields lie in the validated input
domains, with the derived creditLong holding a derived value or empty
and with no paymentHistory field present, the fallback scores at most
15 and therefore returns Very_Bad with range Not eligible, whatever
the random draw. -/
theorem simulatePrediction_always_very_bad (fd : FormData) (r : ℚ)
    (hcs : fd.creditShort ∈ (["1", "0", "-1"] : List String))
    (hcph : fd.cph ∈ (["1", "0", "-1"] : List String))
    (hctl : fd.ctl ∈ (["1", "0", "-1"] : List String))
    (hcl : fd.creditLong ∈ (["-1", "0", "1", ""] : List String))
    (haph : optionInRange (-10) 1 fd.aph)
    (hatl : optionInRange (-10) 1 fd.atl)
    (hqf : optionInRange (-8) 8 fd.quarterFluctuation) :
    simScore fd ≤ 15 ∧
    (simulatePrediction fd r).prediction = "Very_Bad" ∧
    (simulatePrediction fd r).loanRange = "Not eligible" := by
  have hscore : simScore fd ≤ 15 := by
    have hcs' : fd.creditShort = "1" ∨ fd.creditShort = "0" ∨ fd.creditShort = "-1" := by
      simpa using hcs
    have hcl' : fd.creditLong = "-1" ∨ fd.creditLong = "0" ∨
        fd.creditLong = "1" ∨ fd.creditLong = "" := by
      simpa using hcl
    have h1 : ¬ parseOr0 fd.creditShort > 650 := by
      rcases hcs' with h | h | h <;> rw [h] <;> decide
    have h2 : ¬ parseOr0 fd.creditLong > 650 := by
      rcases hcl' with h | h | h | h <;> rw [h] <;> decide
    simp only [simScore, if_neg h1, if_neg h2, paymentHistoryExcellent]
    by_cases h4 : cphGt fd.cph <;> simp [h4]
  refine ⟨hscore, ?_⟩
  have h80 : ¬ simScore fd ≥ 80 := by
    intro hc
    linarith
  have h50 : ¬ simScore fd ≥ 50 := by
    intro hc
    linarith
  simp [simulatePrediction, if_neg h80, if_neg h50]

/-- Witness for C5: a fully filled valid form state with every field
at its best value still yields Very_Bad with range Not eligible. -/
theorem simulatePrediction_always_very_bad_witness :
    (simulatePrediction
      { creditShort := "1", creditLong := "1", timeLimitation := "",
        cph := "1", ctl := "1", aph := some 1, atl := some 1,
        quarterFluctuation := some 4, resultantFluctuation := "1" } 0).prediction
      = "Very_Bad" :=
  (simulatePrediction_always_very_bad
    { creditShort := "1", creditLong := "1", timeLimitation := "",
      cph := "1", ctl := "1", aph := some 1, atl := some 1,
      quarterFluctuation := some 4, resultantFluctuation := "1" } 0
    (by decide) (by decide) (by decide) (by decide)
    (by norm_num [optionInRange]) (by norm_num [optionInRange])
    (by norm_num [optionInRange])).2.1

/-- C6: the object literal returned by the fallback simulatePrediction
exposes only field names that a successful model-backed response also
exposes, so the response carries no field whose presence tags the
result as a heuristic fallback; callers can tell the two apart only by
the absence of the model-only fields. -/
theorem simulatePrediction_untagged : simResultKeys ⊆ apiResultKeys := by
  intro k hk
  fin_cases hk <;> simp [apiResultKeys]

/-- C7 counterexample: two invocations of the fallback on the
identical initial form state, with the random draws 0 and one half
(both legitimate values of Math.random, which ranges from 0 inclusive
to 1 exclusive), return different confidence values, so the prediction
path is not deterministic in its confidence output. -/
theorem simulatePrediction_confidence_differs :
    (0 : ℚ) ≤ 0 ∧ (0 : ℚ) < 1 ∧ (0 : ℚ) ≤ 1/2 ∧ (1/2 : ℚ) < 1 ∧
    (simulatePrediction initialFormData 0).confidence ≠
      (simulatePrediction initialFormData (1/2)).confidence := by
  refine ⟨le_refl 0, by norm_num, by norm_num, by norm_num, ?_⟩
  have hs : simScore initialFormData = 0 := by
    simp [simScore, initialFormData, parseOr0, parseDiscrete?, cphGt, paymentHistoryExcellent]
  have h80 : ¬ simScore initialFormData ≥ 80 := by
    rw [hs]
    norm_num
  have h50 : ¬ simScore initialFormData ≥ 50 := by
    rw [hs]
    norm_num
  simp only [simulatePrediction, if_neg h80, if_neg h50]
  norm_num

/-- C7 amended: the fallback is deterministic in everything except the
random component of the confidence: two invocations on the identical
form state, with arbitrary random draws, agree on the prediction
label, the loan range and the factors. -/
theorem simulatePrediction_label_range_deterministic
    (fd : FormData) (r₁ r₂ : ℚ) :
    (simulatePrediction fd r₁).prediction = (simulatePrediction fd r₂).prediction ∧
    (simulatePrediction fd r₁).loanRange = (simulatePrediction fd r₂).loanRange ∧
    (simulatePrediction fd r₁).factors = (simulatePrediction fd r₂).factors := by
  by_cases h80 : simScore fd ≥ 80
  · simp [simulatePrediction, if_pos h80]
  · by_cases h50 : simScore fd ≥ 50
    · simp [simulatePrediction, if_neg h80, if_pos h50]
    · simp [simulatePrediction, if_neg h80, if_neg h50]

/-- C8: the derived fields are never independently settable. An event
that does not target quarterFluctuation leaves creditLong and
resultantFluctuation untouched; emptying quarterFluctuation clears
both derived fields; and along every sequence of input events from the
initial state, whenever quarterFluctuation is empty both derived
fields are empty. -/
theorem derived_fields_not_independently_settable :
    (∀ (fd : FormData) (e : Event), e.isQF = false →
      (handleInputChange fd e).creditLong = fd.creditLong ∧
      (handleInputChange fd e).resultantFluctuation = fd.resultantFluctuation) ∧
    (∀ fd : FormData,
      (handleInputChange fd (.setQuarterFluctuation none)).quarterFluctuation = none ∧
      (handleInputChange fd (.setQuarterFluctuation none)).creditLong = "" ∧
      (handleInputChange fd (.setQuarterFluctuation none)).resultantFluctuation = "") ∧
    (∀ es : List Event, (runInputs es).quarterFluctuation = none →
      (runInputs es).creditLong = "" ∧ (runInputs es).resultantFluctuation = "") := by
  refine ⟨?_, ?_, ?_⟩
  · intro fd e he
    cases e with
    | setCreditShort v => constructor <;> simp [handleInputChange] <;> split <;> rfl
    | setCph v => constructor <;> simp [handleInputChange] <;> split <;> rfl
    | setCtl v => constructor <;> simp [handleInputChange] <;> split <;> rfl
    | setAph v => cases v <;> constructor <;> simp [handleInputChange] <;> split <;> rfl
    | setAtl v => cases v <;> constructor <;> simp [handleInputChange] <;> split <;> rfl
    | setQuarterFluctuation v => simp [Event.isQF] at he
  · intro fd
    exact ⟨rfl, rfl, rfl⟩
  · have hinv : ∀ es : List Event,
        (runInputs es).quarterFluctuation = none →
        (runInputs es).creditLong = "" ∧ (runInputs es).resultantFluctuation = "" := by
      intro es
      have := foldl_preserves handleInputChange
        (fun fd => fd.quarterFluctuation = none → fd.creditLong = "" ∧ fd.resultantFluctuation = "")
        ?_ es initialFormData ?_
      · exact this
      · intro fd e hfd
        cases e with
        | setCreditShort v =>
            simp only [handleInputChange]
            split <;> simpa using hfd
        | setCph v =>
            simp only [handleInputChange]
            split <;> simpa using hfd
        | setCtl v =>
            simp only [handleInputChange]
            split <;> simpa using hfd
        | setAph v =>
            cases v with
            | none => simpa using hfd
            | some q =>
                simp only [handleInputChange]
                split <;> simpa using hfd
        | setAtl v =>
            cases v with
            | none => simpa using hfd
            | some q =>
                simp only [handleInputChange]
                split <;> simpa using hfd
        | setQuarterFluctuation v =>
            cases v with
            | none => intro _; exact ⟨rfl, rfl⟩
            | some q =>
                simp only [handleInputChange]
                split
                · exact hfd
                · intro hc
                  simp at hc
      · intro _
        exact ⟨rfl, rfl⟩
    exact hinv

/-- Witness for C8: a cph event leaves the derived creditLong alone,
emptying quarterFluctuation clears it, and the invariant holds on a
concrete event sequence. -/
theorem derived_fields_not_independently_settable_witness :
    (handleInputChange initialFormData (.setCph "1")).creditLong =
      initialFormData.creditLong ∧
    (handleInputChange initialFormData (.setQuarterFluctuation none)).creditLong = "" ∧
    (runInputs [.setCph "1"]).creditLong = "" :=
  ⟨(derived_fields_not_independently_settable.1 initialFormData (.setCph "1") rfl).1,
   (derived_fields_not_independently_settable.2.1 initialFormData).2.1,
   (derived_fields_not_independently_settable.2.2 [.setCph "1"] rfl).1⟩

/-- C9: in every state reachable by model-selection events from the
initial state, every model placed into the request body belongs to the
closed set of four identifiers and its service equals the declared
selectedService of the request. -/
theorem selectedModels_service_invariant (es : List ModelEvent) (m : ModelKey)
    (hm : m ∈ requestModels (runModelSel es)) :
    m ∈ ([.xgboost, .random_forest, .logistic, .knn] : List ModelKey) ∧
    serviceOf m = (runModelSel es).selectedService := by
  constructor
  · cases m <;> simp
  · have hinv : ∀ st : ModelSelState,
        (∀ k ∈ requestModels st, serviceOf k = st.selectedService) →
        ∀ e : ModelEvent, ∀ k ∈ requestModels (modelStep st e), serviceOf k = (modelStep st e).selectedService := by
      intro st _ e k hk
      cases e with
      | selectModel k₀ =>
          simp [requestModels, modelStep] at hk
          subst hk
          rfl
      | resetClick =>
          simp only [requestModels, modelStep] at hk ⊢
          cases hs : st.selectedService <;>
            simp [hs, selectedModelsFor] at hk <;>
            rcases hk with h | h <;> subst h <;> rfl
    have hall : ∀ k ∈ requestModels (runModelSel es), serviceOf k = (runModelSel es).selectedService := by
      have := foldl_preserves modelStep
        (fun st => ∀ k ∈ requestModels st, serviceOf k = st.selectedService)
        (fun st e h => hinv st h e) es initialModelSel ?_
      · exact this
      · intro k hk
        simp [requestModels, initialModelSel, selectedModelsFor] at hk
        rcases hk with h | h <;> subst h <;> rfl
    exact hall m hm

/-- Witness for C9: on the empty event sequence the request carries
xgboost, which belongs to the closed set and matches the declared loan
service. -/
theorem selectedModels_service_invariant_witness :
    serviceOf .xgboost = (runModelSel []).selectedService :=
  (selectedModels_service_invariant [] .xgboost (by decide)).2

/-- C10: after every sequence of user actions from the initial state,
input-change events and Reset clicks alike, the two derived fields
creditLong and resultantFluctuation hold the same value. -/
theorem creditLong_eq_resultantFluctuation (acts : List Action) :
    (runActions acts).creditLong = (runActions acts).resultantFluctuation := by
  have := foldl_preserves applyAction
    (fun fd => fd.creditLong = fd.resultantFluctuation) ?_ acts initialFormData rfl
  · exact this
  · intro fd a hfd
    cases a with
    | reset => rfl
    | input e =>
        cases e with
        | setCreditShort v =>
            simp only [applyAction, handleInputChange]
            split <;> simpa using hfd
        | setCph v =>
            simp only [applyAction, handleInputChange]
            split <;> simpa using hfd
        | setCtl v =>
            simp only [applyAction, handleInputChange]
            split <;> simpa using hfd
        | setAph v =>
            cases v with
            | none => simpa using hfd
            | some q =>
                simp only [applyAction, handleInputChange]
                split <;> simpa using hfd
        | setAtl v =>
            cases v with
            | none => simpa using hfd
            | some q =>
                simp only [applyAction, handleInputChange]
                split <;> simpa using hfd
        | setQuarterFluctuation v =>
            cases v with
            | none => rfl
            | some q =>
                simp only [applyAction, handleInputChange]
                split
                · exact hfd
                · rfl

end LoanPrediction
